import Mathlib

/-!
# Verification of ten4sendfile

A shallow embedding of the ten4sendfile library (a userland implementation of
sendfile(2) for Mac OS 10.4) together with proofs and refutations of the
specification's claims about it.

The repository ships the library source in several revisions.  The embedding
below covers the two revisions the claims cite:

* `Rev0.*` — the revision in `src/unnamed/part_000` (the `ten4sendfile.c`
  matching the shipped `ten4sendfile.h`, whose `BUILDING_TEN4SENDFILE` guard
  only that revision defines);
* `Rev2.*` — the revision found at `src/unnamed/part_001` lines 334–630
  (the one with `MAX_RETRIES = 50`, a rewritten vector spooler, and an
  8192-byte relay buffer).

Machine integers are modelled as `Nat`/`Int` with the C semantics spelled out
where they matter (`size_t` values are non-negative, so `x <= 0` on a
`size_t` means `x == 0`; `to_be_sent * 3 >> 2` is `3 * t / 4`).  Octets are
`Nat`s.  System calls (`send`, `writev`, `read`, `fstat`, `getsockopt`,
`lseek`, `nanosleep`) are driven by explicit schedules/oracles supplied as
arguments, one schedule entry per call, so every function is a total,
executable Lean function and a run out of schedule is reported as `none` /
`fuelOut`.
-/

set_option linter.unusedVariables false

namespace Ten4Sendfile

/-- The errno values the library mentions.  Constructor names follow the C
macros (`Eagain` is `EAGAIN`, and so on). -/
inductive Errno where
  | Eagain | Ebadf | Edestaddrreq | Edquot | Efault | Efbig
  | Eintr | Einval | Eio | Emsgsize | Enobufs | Enospc
  | Enotconn | Enotsock | Enotsup | Epipe
  | Eacces | Ehostunreach | Edom | Enoprotoopt
deriving DecidableEq, Repr

open Errno

/-- Result of a C function returning `0` on success and `-1` with `errno` set
on failure. -/
inductive CRet where
  | ok
  | fail (e : Errno)
deriving DecidableEq, Repr

/-- Result of `check_iovv`: a non-negative `ssize_t` total, or `-1` with
`errno` set. -/
inductive IovvRet where
  | ok (sum : Int)
  | fail (e : Errno)
deriving DecidableEq, Repr

/-- `struct iovec`: a base pointer (`none` models `NULL`; `some bs` models a
pointer to the byte region `bs`) and a `size_t` length.  For a well-formed
vector `iov_len` equals the region's length; the embedding keeps the two
separate, exactly as C does. -/
structure IOVec where
  iov_base : Option (List Nat)
  iov_len  : Nat
deriving DecidableEq, Repr

/-- Total number of octets delineated by an iovec array (the sum of the
`iov_len` fields). -/
def viewBytes (v : List IOVec) : Nat := (v.map (fun iov => iov.iov_len)).sum

/-- The octet stream an iovec array delineates: for each element, the first
`iov_len` octets of its region, concatenated in order.  This is what a fully
successful `writev` of the array would transmit. -/
def flattenView (v : List IOVec) : List Nat :=
  (v.map (fun iov => (iov.iov_base.getD []).take iov.iov_len)).flatten

/-- An element is usable when its base is non-null, its length is positive,
and the length is accurate for the region it points to. -/
def goodVec (iov : IOVec) : Prop :=
  iov.iov_base ≠ none ∧ iov.iov_len = (iov.iov_base.getD []).length ∧ 0 < iov.iov_len

/-- A view is valid when all of its elements are usable. -/
def validView (v : List IOVec) : Prop := ∀ iov ∈ v, goodVec iov

instance : DecidablePred goodVec := fun iov => by
  unfold goodVec; infer_instance

instance (v : List IOVec) : Decidable (validView v) := by
  unfold validView; infer_instance

/-- The `errno` remapping both revisions of the spooler apply to a failed
`writev` (the `switch` at `part_000` lines 122–135 and `part_001` lines
445–460): `EBADF`, `EFAULT`, `EINTR`, `EINVAL`, `EIO` (and, in `Rev0`,
`EAGAIN`) pass through; the disk-only errors `EFBIG`, `ENOSPC`, `EDQUOT`
become `ENOTSOCK`; `EPIPE` and `EDESTADDRREQ` become `ENOTCONN`; everything
else — explicitly including `ENOBUFS` — becomes `EIO`.  (`Rev2` dispatches
`EAGAIN` to its retry logic before consulting this table.) -/
def writev_errmap (e : Errno) : Errno :=
  match e with
  | Eintr | Eio | Ebadf | Efault | Einval | Eagain => e
  | Efbig | Enospc | Edquot => Enotsock
  | Epipe | Edestaddrreq => Enotconn
  | _ => Eio

/-- One result of a `send` call, as dictated by the driving schedule: either
`n` octets accepted, or a failure with the given `errno`.  `sleepIntr`
records whether the `nanosleep` that the retry path would then perform gets
interrupted by a signal (`nanosleep` fails with `errno == EINTR`). -/
inductive SendR where
  | ok (n : Nat)
  | err (e : Errno) (sleepIntr : Bool)
deriving DecidableEq, Repr

/-- One result of a `writev` call, same conventions as `SendR`. -/
inductive WResult where
  | ok (r : Nat)
  | err (e : Errno) (sleepIntr : Bool)
deriving DecidableEq, Repr

/-- `const Timespec a_third = {0, 16666667}`: the fixed retry-backoff sleep,
in nanoseconds — one sixtieth of a second rounded up to a whole nanosecond
count. -/
def a_third_ns : Nat := 16666667

namespace Rev0

/-- `const uint32_t MAX_RETRIES = 20;` (part_000 line 62). -/
def MAX_RETRIES : Nat := 20

/-- The sendfile relay buffer size, `part_000` line 249: "Buffer size that
should fit a net packet." -/
def Buf_Sz : Nat := 1400

/-- Everything observable about a finished `stubborn_send` call. -/
structure SSOut where
  /-- The C return value (0, or -1 with `errno`). -/
  res    : CRet
  /-- The value stored back through the `b_sz` in/out parameter. -/
  b_out  : Nat
  /-- The octets handed to `send` and accepted, in transmission order. -/
  sent   : List Nat
  /-- The per-call requested sizes: the value of `to_be_sent` at each
  `send` call, in order. -/
  reqs   : List Nat
  /-- The unconsumed remainder of the `send` schedule. -/
  rest   : List SendR
  /-- How many times `nanosleep` was invoked. -/
  sleeps : Nat
deriving DecidableEq, Repr

/-- The `do … while (cumulative < *b_sz)` loop of `stubborn_send`
(`part_000` lines 198–233).  State: `cum` is `cumulative`, `t` is
`to_be_sent`, `rtr` is `retries`, `sl` counts `nanosleep` calls; `sent` and
`reqs` are the transcripts accumulated so far.  Each iteration consumes one
entry of the `send` schedule; an exhausted schedule is `none`.

On `send` success `n`, the octets moved are the `n` octets of `bufr`
starting at index `cumulative` (`buf_index`); on the failure branches the
code follows the C exactly: `EACCES`/`EHOSTUNREACH` remap to `ENOTCONN`;
`EAGAIN`/`ENOBUFS` sleep a third and retry while `retries++ < MAX_RETRIES`
(a retry interrupted during `nanosleep` returns -1 with `errno == EINTR`),
else give up with `EAGAIN`; `EMSGSIZE` retries immediately with
`to_be_sent * 3 >> 2` (that is `3 * t / 4`); anything else returns -1 with
`errno` unchanged.  Every exit stores `cumulative` into `*b_sz`. -/
def stubborn_loop (bufr : List Nat) (b_sz : Nat) :
    Nat → Nat → Nat → Nat → List SendR → List Nat → List Nat → Option SSOut
  | _cum, _t, _rtr, _sl, [], _sent, _reqs => none
  | cum, t, rtr, sl, .ok n :: rest, sent, reqs =>
      let sent' := sent ++ (bufr.drop cum).take n
      let cum' := cum + n
      if cum' < b_sz then
        let t' := if b_sz - cum' < t then b_sz - cum' else t
        stubborn_loop bufr b_sz cum' t' rtr sl rest sent' (reqs ++ [t])
      else some ⟨.ok, cum', sent', reqs ++ [t], rest, sl⟩
  | cum, t, rtr, sl, .err e si :: rest, sent, reqs =>
      if e = Eacces ∨ e = Ehostunreach then
        some ⟨.fail Enotconn, cum, sent, reqs ++ [t], rest, sl⟩
      else if e = Eagain ∨ e = Enobufs then
        if rtr < MAX_RETRIES then
          if si then some ⟨.fail Eintr, cum, sent, reqs ++ [t], rest, sl + 1⟩
          else stubborn_loop bufr b_sz cum t (rtr + 1) (sl + 1) rest sent (reqs ++ [t])
        else some ⟨.fail Eagain, cum, sent, reqs ++ [t], rest, sl⟩
      else if e = Emsgsize then
        stubborn_loop bufr b_sz cum (3 * t / 4) rtr sl rest sent (reqs ++ [t])
      else some ⟨.fail e, cum, sent, reqs ++ [t], rest, sl⟩

/-- `stubborn_send` (`part_000` lines 183–236).  `bufr = none` models a NULL
buffer pointer; `b_sz` is the in-value of the `size_t` in/out parameter.
Sanity checks first: a NULL buffer fails with `EINVAL` (without storing to
`*b_sz`), a zero length returns success immediately; neither touches the
socket.  Otherwise the send loop runs with `cumulative = 0` and
`to_be_sent = *b_sz`. -/
def stubborn_send (bufr : Option (List Nat)) (b_sz : Nat) (sched : List SendR) :
    Option SSOut :=
  match bufr with
  | none => some ⟨.fail Einval, b_sz, [], [], sched, 0⟩
  | some buf =>
      if b_sz = 0 then some ⟨.ok, b_sz, [], [], sched, 0⟩
      else stubborn_loop buf b_sz 0 b_sz 0 0 sched [] []

/-- Schedules that drive `stubborn_send` to completion: from a state with
`rem` unsent octets, request size `t` and retry count `rtr`, the schedule
makes every `send` either succeed with at least one octet (never more than
requested) or fail transiently (`EAGAIN`/`ENOBUFS`, uninterrupted sleep)
while the retry ceiling has not been reached, until the whole buffer is
gone. -/
inductive Drives : Nat → Nat → Nat → List SendR → Prop
  | fin (rem t rtr : Nat) (rest : List SendR) :
      1 ≤ rem → rem ≤ t → Drives rem t rtr (.ok rem :: rest)
  | step (rem t rtr n : Nat) (rest : List SendR) :
      1 ≤ n → n ≤ t → n < rem →
      Drives (rem - n) (if rem - n < t then rem - n else t) rtr rest →
      Drives rem t rtr (.ok n :: rest)
  | retry (rem t rtr : Nat) (e : Errno) (rest : List SendR) :
      (e = Eagain ∨ e = Enobufs) → rtr < MAX_RETRIES →
      Drives rem t (rtr + 1) rest →
      Drives rem t rtr (.err e false :: rest)

/-- Schedules that drive `stubborn_send` into giving up: as `Drives`, but
ending with a transient failure that arrives once the retry ceiling has
already been used up. -/
inductive DrivesFail : Nat → Nat → Nat → List SendR → Prop
  | fail (rem t rtr : Nat) (e : Errno) (si : Bool) (rest : List SendR) :
      (e = Eagain ∨ e = Enobufs) → MAX_RETRIES ≤ rtr →
      DrivesFail rem t rtr (.err e si :: rest)
  | step (rem t rtr n : Nat) (rest : List SendR) :
      1 ≤ n → n ≤ t → n < rem →
      DrivesFail (rem - n) (if rem - n < t then rem - n else t) rtr rest →
      DrivesFail rem t rtr (.ok n :: rest)
  | retry (rem t rtr : Nat) (e : Errno) (rest : List SendR) :
      (e = Eagain ∨ e = Enobufs) → rtr < MAX_RETRIES →
      DrivesFail rem t (rtr + 1) rest →
      DrivesFail rem t rtr (.err e false :: rest)

end Rev0

namespace Rev2

/-- `const uint32_t MAX_RETRIES = 50;` (part_001 line 395). -/
def MAX_RETRIES : Nat := 50

/-- The validation loop of `check_iovv` (part_001 lines 414–418): scan the
elements in order; a NULL base is `EFAULT`, a non-positive (for a `size_t`:
zero) length is `EINVAL`; otherwise accumulate the `ssize_t` sum. -/
def check_go : List IOVec → Int → IovvRet
  | [], sum => .ok sum
  | iov :: rest, sum =>
      match iov.iov_base with
      | none => .fail Efault
      | some _ =>
          if iov.iov_len = 0 then .fail Einval
          else check_go rest (sum + (iov.iov_len : Int))

/-- `check_iovv` (part_001 lines 398–420): a NULL array is `EFAULT`; a
non-positive element count (`int n_el`) is `EINVAL`; otherwise the first
`n_el` elements of the array (in C, exactly the accessible ones) are
scanned by the loop above.  No post-loop check: the comment in the source
says the sum is "guaranteed to be greater than zero". -/
def check_iovv (varray : Option (List IOVec)) (n_el : Int) : IovvRet :=
  match varray with
  | none => .fail Efault
  | some arr =>
      if n_el ≤ 0 then .fail Einval
      else check_go (arr.take n_el.toNat) 0

/-- Result of the cursor-advance bookkeeping inside the spool loop. -/
inductive CurRet where
  | ok (view : List IOVec) (n_el : Int) (rr : Nat)
  | fail (e : Errno)
deriving DecidableEq, Repr

/-- The "inching up the vector" while loop (part_001 lines 470–475): while
the first element's length is at most the unaccounted write residue `rr`,
subtract it, advance the array pointer past the element and decrement
`*n_el`, failing with `EINVAL` if the count drops below 1.  (The `[]` case
models the dereference of `(**iovv)` past the last element; under the
invariant that `n_el` counts the remaining elements it is unreachable,
because the `n_el < 1` guard fires first.) -/
def spool_advance : List IOVec → Int → Nat → CurRet
  | [], _n, _rr => .fail Einval
  | iov :: restv, n, rr =>
      if iov.iov_len ≤ rr then
        if n - 1 < 1 then .fail Einval
        else spool_advance restv (n - 1) (rr - iov.iov_len)
      else .ok (iov :: restv) n rr

/-- The whole partial-write adjustment (part_001 lines 469–479): advance
past fully consumed elements, then — `if ((_result) && ((**iovv).iov_len >
_result))` — trim the partially consumed first element in place:
`iov_len -= _result; iov_base += _result`. -/
def cursor_adjust (view : List IOVec) (n_el : Int) (rr : Nat) : CurRet :=
  match spool_advance view n_el rr with
  | .fail e => .fail e
  | .ok v' n' rr' =>
      match v' with
      | [] => .ok [] n' 0
      | iov :: tl =>
          if rr' ≠ 0 ∧ rr' < iov.iov_len then
            .ok ({ iov_base := iov.iov_base.map (fun bs => bs.drop rr'),
                   iov_len := iov.iov_len - rr' } :: tl) n' 0
          else .ok (iov :: tl) n' 0

/-- Everything observable about a finished `spool_iovv` call. -/
structure SpOut where
  /-- The C return value. -/
  res : CRet
  /-- The value of `*len` (the `off_t` octet-count output). -/
  len_out : Int
  /-- The octets handed to `writev` and accepted, in transmission order. -/
  sent : List Nat
  /-- The final value of `*iovv` — the caller-visible cursor. -/
  view : List IOVec
  /-- The final value of `*n_el`. -/
  n_el : Int
  /-- The final value of `left_2_go`: octets still unstreamed. -/
  left : Nat
  /-- The unconsumed remainder of the `writev` schedule. -/
  rest : List WResult
  /-- Durations (nanoseconds) of the `nanosleep` calls performed, in order. -/
  sleeps : List Nat
deriving DecidableEq, Repr

/-- The `while (left_2_go > 0)` loop of `spool_iovv` (part_001 lines
439–482).  Each iteration issues one `writev`, consuming one schedule entry
(an exhausted schedule is `none`).  `left_2_go` is a non-negative `ssize_t`,
modelled as a `Nat` with truncating subtraction: the C code exits the loop
as soon as `left_2_go <= 0`, which coincides with the `Nat` model.

On success `r`: if `r` is nonzero, `*len += r`, `left_2_go -= r`, and if
octets remain the cursor is adjusted; an `r` of zero does nothing but loop.
On failure: `EAGAIN` sleeps a third and retries while
`retries++ < MAX_RETRIES` (an interrupted sleep returns -1 with `EINTR`;
an exhausted budget returns -1 with `EAGAIN` unchanged); any other errno is
remapped through the `switch` (`writev_errmap`) and returned at once. -/
def spool_loop :
    List WResult → List IOVec → Int → Int → Nat → Nat → List Nat → List Nat →
    Option SpOut
  | sched, view, n_el, len, left, rtr, sent, sleeps =>
    if left = 0 then some ⟨.ok, len, sent, view, n_el, left, sched, sleeps⟩
    else
      match sched with
      | [] => none
      | .ok r :: rest =>
          if r ≠ 0 then
            let len' := len + (r : Int)
            let sent' := sent ++ (flattenView view).take r
            let left' := left - r
            if 0 < left' then
              match cursor_adjust view n_el r with
              | .fail e => some ⟨.fail e, len', sent', view, n_el, left', rest, sleeps⟩
              | .ok v' n' _ => spool_loop rest v' n' len' left' rtr sent' sleeps
            else spool_loop rest view n_el len' left' rtr sent' sleeps
          else spool_loop rest view n_el len left rtr sent sleeps
      | .err e si :: rest =>
          if e = Eagain then
            if rtr < MAX_RETRIES then
              if si then
                some ⟨.fail Eintr, len, sent, view, n_el, left, rest,
                  sleeps ++ [a_third_ns]⟩
              else spool_loop rest view n_el len left (rtr + 1) sent
                (sleeps ++ [a_third_ns])
            else some ⟨.fail Eagain, len, sent, view, n_el, left, rest, sleeps⟩
          else some ⟨.fail (writev_errmap e), len, sent, view, n_el, left, rest, sleeps⟩

/-- `spool_iovv` (part_001 lines 427–484): `*len = 0`; validate via
`check_iovv` (whose `errno` is returned as is, with `*len` still 0); then
run the streaming loop with `left_2_go` set to the validated total. -/
def spool_iovv (iovv : Option (List IOVec)) (n_el : Int) (sched : List WResult) :
    Option SpOut :=
  match check_iovv iovv n_el with
  | .fail e => some ⟨.fail e, 0, [], iovv.getD [], n_el, 0, sched, []⟩
  | .ok tot => spool_loop sched (iovv.getD []) n_el 0 tot.toNat 0 [] []

/-- Schedules of successful `writev` calls, each moving at least one octet
and at most what the current cursor-adjusted view offers, that drain the
view completely. -/
inductive SpDrives : List IOVec → List WResult → Prop
  | last (v : List IOVec) (rest : List WResult) :
      0 < viewBytes v → SpDrives v (.ok (viewBytes v) :: rest)
  | step (v v' : List IOVec) (r : Nat) (rest : List WResult) :
      1 ≤ r → r < viewBytes v →
      cursor_adjust v (v.length : Int) r = .ok v' (v'.length : Int) 0 →
      SpDrives v' rest → SpDrives v (.ok r :: rest)

end Rev2

/-- Outcome classification for the part_000 routines, which besides
returning 0 or -1 can run into undefined behaviour the embedding cannot
model, or out-run their driving schedule. -/
inductive Res0 where
  /-- Returned 0. -/
  | success
  /-- Returned -1 with `errno` set to `e`. -/
  | failure (e : Errno)
  /-- Dereferenced a null or out-of-bounds pointer; execution does not
  continue in any defined way. -/
  | crash
  /-- Reached the readjustment path whose `el_bup = *vary[i]` (an indexing
  of the `IOVec **` itself, `part_000` line 160) and whose re-use of the
  stale element count (`writev(sock, *vary, *n_el)` after `*vary += i`,
  lines 165 and 107) read out of bounds; not modellable. -/
  | ub
  /-- The driving schedule ran out. -/
  | fuelOut
deriving DecidableEq, Repr

namespace Rev0

/-- The validation loop of part_000's `check_iovv` (lines 80–86) together
with the post-loop `if (sum == 0) { errno = EINVAL; return -1; }`: scan the
elements in order; a NULL base is `EFAULT`, a zero `size_t` length
(`iov_len <= 0`) is `EINVAL`; at the end a zero sum is `EINVAL`, any other
sum is returned. -/
def check_go : List IOVec → Int → IovvRet
  | [], sum => if sum = 0 then .fail Einval else .ok sum
  | iov :: rest, sum =>
      match iov.iov_base with
      | none => .fail Efault
      | some _ =>
          if iov.iov_len = 0 then .fail Einval
          else check_go rest (sum + (iov.iov_len : Int))

/-- `check_iovv` (part_000 lines 72–87): a NULL array is `EFAULT`; a zero
element count (`uint32_t n_el`) is `EINVAL`; otherwise the first `n_el`
elements (in C, exactly the accessible ones) are scanned. -/
def check_iovv (vary : Option (List IOVec)) (n_el : Nat) : IovvRet :=
  match vary with
  | none => .fail Efault
  | some arr =>
      if n_el = 0 then .fail Einval
      else check_go (arr.take n_el) 0

/-- Everything observable about a finished part_000 `spool_iovv` call. -/
structure Sp0Out where
  /-- Outcome. -/
  res : Res0
  /-- The final value of `*lngth`. -/
  len_out : Int
  /-- Octets handed to `writev` and accepted, in order. -/
  sent : List Nat
  /-- Unconsumed remainder of the `writev` schedule. -/
  rest : List WResult
deriving DecidableEq, Repr

/-- The cursor part_000's spool loop rebuilds after each partial write: the
caller's array is restored to its original state and the first (and only
reachable without undefined behaviour) block is trimmed by the cumulative
count `d`: `iov_len -= d; iov_base += d` (lines 161–162). -/
def trimHead (a0 : IOVec) (arest : List IOVec) (d : Nat) : List IOVec :=
  { iov_base := a0.iov_base.map (fun bs => bs.drop d), iov_len := a0.iov_len - d }
    :: arest

/-- The `while (v_subt < v_tot)` loop of part_000's `spool_iovv` (lines
106–170) plus the post-loop accounting (lines 171–176).  `a0 :: arest` is
the original array, `vcur` the view the next `writev` sees, `v_subt` the
cumulative octet count.  Each iteration consumes one schedule entry.

On `writev` failure the `switch` applies `writev_errmap` and the function
returns -1 after `*lngth += v_subt` (lines 122–141).  On success `r` with
data still missing, the code restores the array and crawls it to find the
block containing offset `v_subt'`: when that is block 0 the trim is
well-defined and modelled by `trimHead`; when the crawl finds no block
(overshoot past `v_tot`) nothing is adjusted and the loop exits successfully
over-reporting; when the target is a later block the code executes
`el_bup = *vary[i]` with `i > 0` and later passes a stale `*n_el` to
`writev` — out-of-bounds accesses the embedding flags as `ub`. -/
def spool_loop (a0 : IOVec) (arest : List IOVec) (v_tot : Nat) (len : Int) :
    List WResult → List IOVec → Nat → List Nat → Sp0Out
  | sched, vcur, v_subt, sent =>
    if v_subt < v_tot then
      match sched with
      | [] => ⟨.fuelOut, len, sent, []⟩
      | .ok r :: rest =>
          let sent' := sent ++ (flattenView vcur).take r
          let v_subt' := v_subt + r
          if r ≠ 0 ∧ v_subt' ≠ v_tot then
            if v_subt' < a0.iov_len then
              spool_loop a0 arest v_tot len rest (trimHead a0 arest v_subt') v_subt' sent'
            else if v_tot ≤ v_subt' then
              spool_loop a0 arest v_tot len rest (a0 :: arest) v_subt' sent'
            else ⟨.ub, len, sent', rest⟩
          else spool_loop a0 arest v_tot len rest vcur v_subt' sent'
      | .err e _si :: rest =>
          ⟨.failure (writev_errmap e), len + (v_subt : Int), sent, rest⟩
    else ⟨.success, len + (v_subt : Int), sent, sched⟩

/-- part_000's `spool_iovv` (lines 90–177).  `vary` is the `IOVec **`: the
outer `none` models a pointer fabricated from a NULL `hdtr`
(`&(hdtr->headers)`), whose dereference at line 96 is a crash; the inner
`none` models a NULL `IOVec *`, and an empty array models a pointer to no
elements — either way the prologue `el_bup = *vary[0]` (line 97) reads
through them before any validation, a crash.  On a `check_iovv` failure the
code executes `lngth = 0;` (line 103) — nulling its local copy of the
pointer, not the caller's value, so `*lngth` is left unchanged — and
returns -1. -/
def spool_iovv (vary : Option (Option (List IOVec))) (n_el : Nat) (len : Int)
    (sched : List WResult) : Sp0Out :=
  match vary with
  | none => ⟨.crash, len, [], sched⟩
  | some none => ⟨.crash, len, [], sched⟩
  | some (some []) => ⟨.crash, len, [], sched⟩
  | some (some (a0 :: arest)) =>
      match check_iovv (some (a0 :: arest)) n_el with
      | .fail e => ⟨.failure e, len, [], sched⟩
      | .ok tot => spool_loop a0 arest tot.toNat len sched (a0 :: arest) 0 []

/-- `S_IFREG` / `S_IFSOCK` / anything else, as tested against
`st_mode & S_IFMT`. -/
inductive FileKind where
  | reg | sock | other
deriving DecidableEq, Repr

/-- The slice of `struct stat` the code looks at. -/
structure StatR where
  st_kind : FileKind
  st_size : Int
deriving DecidableEq, Repr

/-- Result of an `fstat` call. -/
inductive StatRet where
  | ok (st : StatR)
  | fail (e : Errno)
deriving DecidableEq, Repr

/-- Result of the `getsockopt(sd, SOL_SOCKET, SO_TYPE, …)` call: the socket
type stored through the out-parameter, or a failure. -/
inductive SockOptRet where
  | ok (so_type : Int)
  | fail (e : Errno)
deriving DecidableEq, Repr

/-- One result of a `read` call: a chunk of octets (empty means
end-of-file), or a failure. -/
inductive ReadR where
  | ok (chunk : List Nat)
  | err (e : Errno)
deriving DecidableEq, Repr

/-- `struct sf_hdtr` (ten4sendfile.h lines 31–36). -/
structure SfHdTr where
  headers : Option (List IOVec)
  hdr_cnt : Int
  trailers : Option (List IOVec)
  trl_cnt : Int
deriving DecidableEq, Repr

/-- The environment a `sendfile` call runs against: the downward-facing
system calls and their outcomes. -/
structure World where
  /-- `fstat(fd, &stats)`. -/
  fstat_fd : StatRet
  /-- `fstat(sd, &stats)`. -/
  fstat_sd : StatRet
  /-- `getsockopt(sd, SOL_SOCKET, SO_TYPE, &temp, &s_len)`. -/
  so_type : SockOptRet
  /-- The position `lseek(fd, offset, SEEK_SET)` reports. -/
  lseek_res : Int
  /-- Schedule of `read(fd, …)` results. -/
  reads : List ReadR
  /-- Schedule of `send(sd, …)` results, consumed by `stubborn_send`. -/
  sends : List SendR
  /-- Schedule of `writev(sd, …)` results, consumed by `spool_iovv`. -/
  writevs : List WResult
deriving DecidableEq, Repr

/-- The `SOCK_STREAM` constant the socket type is compared against. -/
def SOCK_STREAM : Int := 1

/-- Everything observable about the file-relay loop. -/
structure BodyOut where
  /-- Outcome. -/
  res : Res0
  /-- The final value of `cumulative` — which the code advances by the
  octets READ (`buf_ptr`), not the octets the sender reports. -/
  cumulative : Nat
  /-- Octets actually accepted by `send`, in order. -/
  sent : List Nat
  /-- The value of the retry counter `temp` when the loop ends. -/
  retry_final : Nat
  /-- Unconsumed read schedule. -/
  reads_left : List ReadR
  /-- Unconsumed send schedule. -/
  sends_left : List SendR
deriving DecidableEq, Repr

/-- The `while (done_flag == False)` relay loop of part_000's `sendfile`
(lines 299–318).  `rtc` is `temp`, the per-chunk read-retry counter (it is
reset to 0 at the top of each `while` iteration, but the retry `goto
Buf_Fill` jumps past the reset).  Each outer step consumes one read-schedule
entry.

A failed read with `EINTR`/`EAGAIN` retries while `temp++ < MAX_RETRIES`
(line 305); giving up, or any other read failure (with `EINVAL` remapped to
`EIO`), returns -1.  A non-empty chunk of `buf_ptr` octets is handed to
`stubborn_send`; `cumulative += buf_ptr` is executed whether or not the
sender succeeded or sent fewer octets; an empty chunk is end-of-file. -/
def body_loop : List ReadR → List SendR → Nat → Nat → List Nat → BodyOut
  | [], ssched, rtc, cum, sent => ⟨.fuelOut, cum, sent, rtc, [], ssched⟩
  | .err e :: rrest, ssched, rtc, cum, sent =>
      if e = Eintr ∨ e = Eagain then
        if rtc < MAX_RETRIES then body_loop rrest ssched (rtc + 1) cum sent
        else ⟨.failure e, cum, sent, rtc, rrest, ssched⟩
      else ⟨.failure (if e = Einval then Eio else e), cum, sent, rtc, rrest, ssched⟩
  | .ok chunk :: rrest, ssched, rtc, cum, sent =>
      if chunk = [] then ⟨.success, cum, sent, rtc, rrest, ssched⟩
      else
        match stubborn_send (some chunk) chunk.length ssched with
        | none => ⟨.fuelOut, cum, sent, rtc, rrest, ssched⟩
        | some ss =>
            match ss.res with
            | .fail e => ⟨.failure e, cum + chunk.length, sent ++ ss.sent, rtc,
                rrest, ss.rest⟩
            | .ok => body_loop rrest ss.rest 0 (cum + chunk.length) (sent ++ ss.sent)

/-- Everything observable about a finished `sendfile` call. -/
structure SfOut where
  /-- Outcome. -/
  res : Res0
  /-- The value left in `*len` (`none` when the `len` pointer was NULL). -/
  len_out : Option Int
  /-- Every octet actually accepted by the socket, in transmission order
  (header octets, then file octets, then trailer octets). -/
  sent : List Nat
  /-- Unconsumed read schedule. -/
  reads_left : List ReadR
  /-- Unconsumed send schedule. -/
  sends_left : List SendR
  /-- Unconsumed writev schedule. -/
  writevs_left : List WResult
deriving DecidableEq, Repr

/-- part_000's `sendfile` (lines 239–326), step by step:

* `len == NULL` is `EINVAL`; otherwise `*len = 0` (the incoming value is
  never read — this revision always relays through to end-of-file);
* `offset < 0 || flags != 0` is `EINVAL`;
* `fstat(fd)` failures pass through; a non-regular file is `ENOTSUP`;
* `offset > st_size` returns 0 at once — with `*len` still 0 and nothing
  transmitted;
* `fstat(sd)` failures pass through; a non-socket is `ENOTSOCK`;
  `getsockopt` failures pass through except `EDOM`/`ENOPROTOOPT` which
  become `EINVAL`; a non-`SOCK_STREAM` type is `ENOTSOCK`;
* a seek whose reported position differs from `offset` is `EIO`;
* headers: the guard at line 293 has no braces, so only `temp = hdr_cnt`
  is conditional and `spool_iovv(sd, &(hdtr->headers), &temp, len)` runs
  UNCONDITIONALLY — when the guard was false, with `temp` still holding the
  socket type left there by `getsockopt`, and when `hdtr` is NULL with a
  null-based pointer (a crash inside the spooler);
* the relay loop (`body_loop`); on its failure `*len += cumulative`, but on
  success `cumulative` is never added to `*len`;
* trailers: same braceless pattern as headers (lines 320–323), the stale
  `temp` here being the relay loop's final retry counter. -/
def sendfile (w : World) (offset : Int) (len : Option Int) (hdtr : Option SfHdTr)
    (flags : Int) : SfOut :=
  match len with
  | none => ⟨.failure Einval, none, [], w.reads, w.sends, w.writevs⟩
  | some _len_in =>
    if offset < 0 ∨ flags ≠ 0 then
      ⟨.failure Einval, some 0, [], w.reads, w.sends, w.writevs⟩
    else
      match w.fstat_fd with
      | .fail e => ⟨.failure e, some 0, [], w.reads, w.sends, w.writevs⟩
      | .ok st =>
        if st.st_kind ≠ .reg then
          ⟨.failure Enotsup, some 0, [], w.reads, w.sends, w.writevs⟩
        else if st.st_size < offset then
          ⟨.success, some 0, [], w.reads, w.sends, w.writevs⟩
        else
          match w.fstat_sd with
          | .fail e => ⟨.failure e, some 0, [], w.reads, w.sends, w.writevs⟩
          | .ok st2 =>
            if st2.st_kind ≠ .sock then
              ⟨.failure Enotsock, some 0, [], w.reads, w.sends, w.writevs⟩
            else
              match w.so_type with
              | .fail e =>
                  ⟨.failure (if e = Edom ∨ e = Enoprotoopt then Einval else e),
                    some 0, [], w.reads, w.sends, w.writevs⟩
              | .ok so =>
                if so ≠ SOCK_STREAM then
                  ⟨.failure Enotsock, some 0, [], w.reads, w.sends, w.writevs⟩
                else if w.lseek_res ≠ offset then
                  ⟨.failure Eio, some 0, [], w.reads, w.sends, w.writevs⟩
                else
                  -- header phase (unconditional spool, see above)
                  let hvary : Option (Option (List IOVec)) :=
                    match hdtr with
                    | none => none
                    | some h => some h.headers
                  let temp_h : Nat :=
                    match hdtr with
                    | none => so.toNat
                    | some h =>
                        if h.headers ≠ none ∧ 0 < h.hdr_cnt then h.hdr_cnt.toNat
                        else so.toNat
                  let sp1 := spool_iovv hvary temp_h 0 w.writevs
                  match sp1.res with
                  | .failure e =>
                      ⟨.failure e, some sp1.len_out, sp1.sent, w.reads, w.sends,
                        sp1.rest⟩
                  | .success =>
                      -- relay the file body
                      let b := body_loop w.reads w.sends 0 0 []
                      match b.res with
                      | .failure e =>
                          ⟨.failure e, some (sp1.len_out + (b.cumulative : Int)),
                            sp1.sent ++ b.sent, b.reads_left, b.sends_left, sp1.rest⟩
                      | .success =>
                          -- trailer phase (same braceless pattern; on success
                          -- `cumulative` was never added to `*len`)
                          let tvary : Option (Option (List IOVec)) :=
                            match hdtr with
                            | none => none
                            | some h => some h.trailers
                          let temp_t : Nat :=
                            match hdtr with
                            | none => b.retry_final
                            | some h =>
                                if h.trailers ≠ none ∧ 0 < h.trl_cnt then
                                  h.trl_cnt.toNat
                                else b.retry_final
                          let sp2 := spool_iovv tvary temp_t sp1.len_out sp1.rest
                          match sp2.res with
                          | .failure e =>
                              ⟨.failure e, some sp2.len_out,
                                sp1.sent ++ b.sent ++ sp2.sent, b.reads_left,
                                b.sends_left, sp2.rest⟩
                          | .success =>
                              ⟨.success, some sp2.len_out,
                                sp1.sent ++ b.sent ++ sp2.sent, b.reads_left,
                                b.sends_left, sp2.rest⟩
                          | r => ⟨r, some sp2.len_out,
                              sp1.sent ++ b.sent ++ sp2.sent, b.reads_left,
                              b.sends_left, sp2.rest⟩
                      | r => ⟨r, some sp1.len_out, sp1.sent ++ b.sent,
                          b.reads_left, b.sends_left, sp1.rest⟩
                  | r => ⟨r, some sp1.len_out, sp1.sent, w.reads, w.sends, sp1.rest⟩

end Rev0

end Ten4Sendfile

namespace Ten4Sendfile

open Errno

namespace Rev0

theorem stubborn_loop_drives (bufr : List Nat) (b_sz : Nat)
    (rem t rtr : Nat) (sched : List SendR) (hd : Drives rem t rtr sched) :
    ∀ (cum sl : Nat) (sent reqs : List Nat),
    bufr.length = b_sz → cum < b_sz → rem = b_sz - cum →
    (stubborn_loop bufr b_sz cum t rtr sl sched sent reqs).map
        (fun o => (o.res, o.b_out, o.sent))
      = some (.ok, b_sz, sent ++ bufr.drop cum) := by
  induction hd with
  | fin rem t' rtr' rest h1 h2 =>
      intro cum sl sent reqs hlen hcum hrem
      subst hrem
      have hadd : cum + (b_sz - cum) = b_sz := Nat.add_sub_cancel' (Nat.le_of_lt hcum)
      have hterm : ¬ (cum + (b_sz - cum) < b_sz) := by omega
      have htake : (bufr.drop cum).take (b_sz - cum) = bufr.drop cum := by
        apply List.take_of_length_le
        simp [hlen]
      simp [stubborn_loop, hterm, hadd, htake]
  | step rem t' rtr' n rest h1 h2 h3 hrec ih =>
      intro cum sl sent reqs hlen hcum hrem
      have hlt : cum + n < b_sz := by omega
      have hsub : rem - n = b_sz - (cum + n) := by omega
      have hih := ih (cum + n) sl (sent ++ (bufr.drop cum).take n) (reqs ++ [t'])
        hlen hlt hsub
      rw [stubborn_loop]
      simp only [hlt, if_pos]
      rw [show (if b_sz - (cum + n) < t' then b_sz - (cum + n) else t')
            = (if rem - n < t' then rem - n else t') by rw [hsub]]
      rw [hih]
      have hassoc : (bufr.drop cum).take n ++ bufr.drop (cum + n) = bufr.drop cum := by
        have h0 := List.take_append_drop n (bufr.drop cum)
        rw [List.drop_drop] at h0
        exact h0
      simp [hassoc]
  | retry rem t' rtr' e rest he hrtr hrec ih =>
      intro cum sl sent reqs hlen hcum hrem
      have hih := ih cum (sl + 1) sent (reqs ++ [t']) hlen hcum hrem
      rcases he with he | he <;> subst he <;>
        simpa [stubborn_loop, hrtr] using hih

theorem stubborn_loop_drives_fail (bufr : List Nat) (b_sz : Nat)
    (rem t rtr : Nat) (sched : List SendR) (hd : DrivesFail rem t rtr sched) :
    ∀ (cum sl : Nat) (reqs : List Nat),
    bufr.length = b_sz → cum < b_sz → rem = b_sz - cum → t ≤ rem →
    ∃ cf : Nat, cf ≤ b_sz ∧
      (stubborn_loop bufr b_sz cum t rtr sl sched (bufr.take cum) reqs).map
          (fun o => (o.res, o.b_out, o.sent))
        = some (.fail Eagain, cf, bufr.take cf) := by
  induction hd with
  | fail rem t' rtr' e si rest he hrtr =>
      intro cum sl reqs hlen hcum hrem ht
      refine ⟨cum, Nat.le_of_lt hcum, ?_⟩
      have hnl : ¬ (rtr' < MAX_RETRIES) := by omega
      rcases he with he | he <;> subst he <;>
        simp [stubborn_loop, hnl]
  | step rem t' rtr' n rest h1 h2 h3 hrec ih =>
      intro cum sl reqs hlen hcum hrem ht
      have hlt : cum + n < b_sz := by omega
      have hsub : rem - n = b_sz - (cum + n) := by omega
      have htstep : (if rem - n < t' then rem - n else t') ≤ rem - n := by
        split <;> omega
      have hsent : bufr.take cum ++ (bufr.drop cum).take n = bufr.take (cum + n) :=
        (List.take_add bufr cum n).symm
      obtain ⟨cf, hcf, hih⟩ := ih (cum + n) sl (reqs ++ [t']) hlen hlt hsub htstep
      refine ⟨cf, hcf, ?_⟩
      rw [stubborn_loop]
      simp only [hlt, if_pos]
      rw [show (if b_sz - (cum + n) < t' then b_sz - (cum + n) else t')
            = (if rem - n < t' then rem - n else t') by rw [hsub]]
      rw [hsent]
      exact hih
  | retry rem t' rtr' e rest he hrtr hrec ih =>
      intro cum sl reqs hlen hcum hrem ht
      obtain ⟨cf, hcf, hih⟩ := ih cum (sl + 1) (reqs ++ [t']) hlen hcum hrem ht
      refine ⟨cf, hcf, ?_⟩
      rcases he with he | he <;> subst he <;>
        simpa [stubborn_loop, hrtr] using hih

/-- A schedule of `j + 1` consecutive would-block failures drives
`stubborn_send` into giving up whenever the retry budget left is at most
`j`. -/
theorem drivesFail_replicate (rem t : Nat) :
    ∀ (j rtr : Nat), MAX_RETRIES ≤ rtr + j →
    DrivesFail rem t rtr (List.replicate (j + 1) (SendR.err Eagain false)) := by
  intro j
  induction j with
  | zero =>
      intro rtr h
      exact .fail rem t rtr Eagain false _ (Or.inl rfl) (by omega)
  | succ j ih =>
      intro rtr h
      rw [List.replicate_succ]
      by_cases hr : rtr < MAX_RETRIES
      · exact .retry rem t rtr Eagain _ (Or.inl rfl) hr (ih (rtr + 1) (by omega))
      · exact .fail rem t rtr Eagain false _ (Or.inl rfl) (by omega)

end Rev0

/-- C4: For every buffer of length `N` given to `stubborn_send`: if the
underlying `send` fails with would-block/no-buffers strictly fewer times
than the retry ceiling (`MAX_RETRIES = 20`), each other attempt succeeding
at least partially (never beyond what was requested), the call succeeds with
all `N` octets sent exactly once; if the ceiling is exceeded, it returns the
would-block error (`EAGAIN`) with the size output equal to exactly the
octets sent before giving up.  `Drives` admits up to `MAX_RETRIES`
would-block failures, so in particular any number strictly below the
ceiling; `DrivesFail` describes the schedules on which a transient failure
arrives with the ceiling already used up. -/
theorem c4_stubborn_send_bounded_retry :
    (∀ (bufr : List Nat) (sched : List SendR),
        0 < bufr.length → Rev0.Drives bufr.length bufr.length 0 sched →
        (Rev0.stubborn_send (some bufr) bufr.length sched).map
            (fun o => (o.res, o.b_out, o.sent))
          = some (.ok, bufr.length, bufr))
    ∧ (∀ (bufr : List Nat) (sched : List SendR),
        0 < bufr.length → Rev0.DrivesFail bufr.length bufr.length 0 sched →
        ((Rev0.stubborn_send (some bufr) bufr.length sched).isSome = true
          ∧ ∀ o : Rev0.SSOut,
              Rev0.stubborn_send (some bufr) bufr.length sched = some o →
              o.res = .fail Eagain ∧ o.sent = bufr.take o.b_out
                ∧ o.b_out = o.sent.length)) := by
  constructor
  · intro bufr sched hpos hd
    have hne : ¬ (bufr.length = 0) := by omega
    have h := Rev0.stubborn_loop_drives bufr bufr.length bufr.length bufr.length 0
      sched hd 0 0 [] [] rfl hpos (by omega)
    simpa [Rev0.stubborn_send, hne] using h
  · intro bufr sched hpos hd
    have hne : ¬ (bufr.length = 0) := by omega
    obtain ⟨cf, hcf, hmap⟩ := Rev0.stubborn_loop_drives_fail bufr bufr.length
      bufr.length bufr.length 0 sched hd 0 0 [] rfl hpos (by omega) (le_refl _)
    have hsend : (Rev0.stubborn_send (some bufr) bufr.length sched).map
        (fun o => (o.res, o.b_out, o.sent)) = some (.fail Eagain, cf, bufr.take cf) := by
      simpa [Rev0.stubborn_send, hne] using hmap
    constructor
    · have h1 : ((Rev0.stubborn_send (some bufr) bufr.length sched).map
          (fun o => (o.res, o.b_out, o.sent))).isSome = true := by rw [hsend]; rfl
      simpa using h1
    · intro o ho
      rw [ho] at hsend
      simp only [Option.map_some', Option.some.injEq, Prod.mk.injEq] at hsend
      obtain ⟨h1, h2, h3⟩ := hsend
      refine ⟨h1, by rw [h3, h2], ?_⟩
      rw [h2, h3, List.length_take]
      omega

/-- C4 witness: a concrete three-octet buffer.  A schedule with one
would-block failure (fewer than the ceiling of 20) completes the whole
buffer; a schedule of 21 consecutive would-block failures makes the call
give up with `EAGAIN`. -/
theorem c4_stubborn_send_bounded_retry_witness :
    ((Rev0.stubborn_send (some [5, 6, 7]) 3
        [.ok 2, .err Eagain false, .ok 1]).map (fun o => (o.res, o.b_out, o.sent))
      = some (.ok, 3, [5, 6, 7]))
    ∧ (Rev0.stubborn_send (some [5, 6, 7]) 3
        (List.replicate 21 (SendR.err Eagain false))).isSome = true := by
  have d2 : Rev0.Drives 1 1 1 [.ok 1] := .fin 1 1 1 [] (by decide) (by decide)
  have d1 : Rev0.Drives 1 1 0 [.err Eagain false, .ok 1] :=
    .retry 1 1 0 Eagain _ (Or.inl rfl) (by decide) d2
  have d0 : Rev0.Drives 3 3 0 [.ok 2, .err Eagain false, .ok 1] :=
    .step 3 3 0 2 _ (by decide) (by decide) (by decide) d1
  have df : Rev0.DrivesFail 3 3 0 (List.replicate 21 (SendR.err Eagain false)) :=
    Rev0.drivesFail_replicate 3 3 20 0 (by decide)
  exact ⟨c4_stubborn_send_bounded_retry.1 [5, 6, 7] _ (by decide) d0,
    (c4_stubborn_send_bounded_retry.2 [5, 6, 7] _ (by decide) df).1⟩

/-- C5 counterexample: the claim says an oversized-message failure shrinks
the chunk to three quarters "but never below a standard network-packet
payload size".  There is no such floor in the code: starting from the
library's own packet-sized request of 1400 octets, one `EMSGSIZE` failure
makes the next request 1050 octets — strictly below 1400 (and below an
Ethernet payload of 1500).  The `reqs` transcript lists the size requested
at each `send` call. -/
theorem c5_msgsize_no_floor_counterexample :
    ((Rev0.stubborn_send (some (List.replicate 1400 0)) 1400
        [.err Emsgsize false, .ok 1050, .ok 350]).map (fun o => o.reqs)
      = some [1400, 1050, 350])
    ∧ 1050 < 1400 ∧ 1050 < 1500 := by
  refine ⟨?_, by decide, by decide⟩
  rfl

/-- C5 as amended: in `stubborn_send`, every oversized-message (`EMSGSIZE`)
failure reduces the requested chunk size to `3 * t / 4`
(`to_be_sent * 3 >> 2`, with no lower floor), the retry happens immediately
(no `nanosleep`: the sleep counter `sl` is unchanged), nothing is recorded
as sent, and the failure is not counted against the bounded retry ceiling
(the retry counter `rtr` is unchanged). -/
theorem c5_msgsize_reduction_amended :
    ∀ (bufr : List Nat) (b cum t rtr sl : Nat) (si : Bool)
      (rest : List SendR) (sent reqs : List Nat),
      Rev0.stubborn_loop bufr b cum t rtr sl (.err Emsgsize si :: rest) sent reqs
        = Rev0.stubborn_loop bufr b cum (3 * t / 4) rtr sl rest sent (reqs ++ [t]) := by
  intro bufr b cum t rtr sl si rest sent reqs
  rfl

theorem flattenView_cons (iov : IOVec) (tl : List IOVec) :
    flattenView (iov :: tl)
      = (iov.iov_base.getD []).take iov.iov_len ++ flattenView tl := by
  simp [flattenView]

theorem viewBytes_cons (iov : IOVec) (tl : List IOVec) :
    viewBytes (iov :: tl) = iov.iov_len + viewBytes tl := by
  simp [viewBytes]

theorem validView_cons (iov : IOVec) (tl : List IOVec) (h : validView (iov :: tl)) :
    goodVec iov ∧ validView tl :=
  ⟨h iov (by simp), fun x hx => h x (by simp [hx])⟩

theorem flattenView_length (v : List IOVec) (hv : validView v) :
    (flattenView v).length = viewBytes v := by
  induction v with
  | nil => rfl
  | cons iov tl ih =>
      obtain ⟨⟨hb, hlen, hpos⟩, htl⟩ := validView_cons iov tl hv
      rw [flattenView_cons, viewBytes_cons, List.length_append, ih htl]
      congr 1
      rw [List.length_take]
      omega

namespace Rev2

theorem check_go_valid (v : List IOVec) :
    validView v → ∀ s : Int, check_go v s = .ok (s + (viewBytes v : Int)) := by
  induction v with
  | nil => intro _ s; simp [check_go, viewBytes]
  | cons iov tl ih =>
      intro hv s
      obtain ⟨⟨hb, hlen, hpos⟩, htl⟩ := validView_cons iov tl hv
      rcases hbase : iov.iov_base with _ | bs
      · exact absurd hbase hb
      · rw [check_go]
        rw [hbase]
        have hz : ¬ (iov.iov_len = 0) := by omega
        simp only [hz, if_neg, ite_false]
        rw [ih htl (s + (iov.iov_len : Int)), viewBytes_cons]
        push_cast
        ring_nf

theorem check_iovv_valid (arr : List IOVec) (h : arr ≠ []) (hv : validView arr) :
    check_iovv (some arr) (arr.length : Int) = .ok (viewBytes arr : Int) := by
  have hlenpos : 0 < arr.length := List.length_pos.mpr h
  have hpos : ¬ ((arr.length : Int) ≤ 0) := by omega
  rw [check_iovv]
  simp only [hpos, ite_false, if_neg]
  rw [Int.toNat_natCast, List.take_length]
  rw [check_go_valid arr hv 0]
  simp

theorem cursor_adjust_spec (v : List IOVec) :
    ∀ r : Nat, validView v → 0 < r → r < viewBytes v →
    ∃ v' : List IOVec,
      cursor_adjust v (v.length : Int) r = .ok v' (v'.length : Int) 0
      ∧ validView v' ∧ flattenView v' = (flattenView v).drop r
      ∧ viewBytes v' = viewBytes v - r := by
  induction v with
  | nil => intro r _ _ hlt; simp [viewBytes] at hlt
  | cons iov tl ih =>
      intro r hv hr hlt
      obtain ⟨⟨hb, hlen, hpos⟩, htl⟩ := validView_cons iov tl hv
      rcases hbase : iov.iov_base with _ | bs
      · exact absurd hbase hb
      have hbs : bs.length = iov.iov_len := by rw [hlen, hbase]; rfl
      have hflat : flattenView (iov :: tl) = bs ++ flattenView tl := by
        rw [flattenView_cons, hbase]
        simp [← hbs]
      by_cases hle : iov.iov_len ≤ r
      · -- the head element is fully consumed: the advance loop skips past it
        have hbytes : r - iov.iov_len < viewBytes tl := by
          rw [viewBytes_cons] at hlt; omega
        have htlne : tl ≠ [] := by
          intro h0
          rw [h0, viewBytes_cons] at hlt
          simp [viewBytes] at hlt
          omega
        have htllen : 0 < tl.length := List.length_pos.mpr htlne
        have hg : ¬ (((iov :: tl).length : Int) - 1 < 1) := by
          simp only [List.length_cons]; push_cast; omega
        have harith : ((iov :: tl).length : Int) - 1 = (tl.length : Int) := by
          simp only [List.length_cons]; push_cast; ring
        have hstep : cursor_adjust (iov :: tl) ((iov :: tl).length : Int) r
            = cursor_adjust tl (tl.length : Int) (r - iov.iov_len) := by
          unfold cursor_adjust
          rw [spool_advance, if_pos hle, if_neg hg, harith]
        have hdropflat : (flattenView (iov :: tl)).drop r
            = (flattenView tl).drop (r - iov.iov_len) := by
          rw [hflat]
          calc (bs ++ flattenView tl).drop r
              = (bs ++ flattenView tl).drop (bs.length + (r - iov.iov_len)) := by
                congr 1
                omega
            _ = (flattenView tl).drop (r - iov.iov_len) := by
                rw [List.drop_append]
        by_cases heq : r = iov.iov_len
        · -- consumed exactly the head: residue 0, no trim
          refine ⟨tl, ?_, htl, ?_, ?_⟩
          · rw [hstep, heq, Nat.sub_self]
            rcases htl2 : tl with _ | ⟨iov2, tl2⟩
            · exact absurd htl2 htlne
            · obtain ⟨⟨hb2, hlen2, hpos2⟩, _⟩ :=
                validView_cons iov2 tl2 (htl2 ▸ htl)
              unfold cursor_adjust
              rw [spool_advance]
              have h2 : ¬ (iov2.iov_len ≤ 0) := by omega
              simp [h2]
          · rw [hdropflat, heq, Nat.sub_self, List.drop_zero]
          · rw [viewBytes_cons]; omega
        · -- consumed past the head: recurse
          have hrr : 0 < r - iov.iov_len := by omega
          obtain ⟨v', hadj, hvalid, hflat', hbytes'⟩ := ih (r - iov.iov_len) htl hrr hbytes
          refine ⟨v', by rw [hstep, hadj], hvalid, ?_, ?_⟩
          · rw [hflat', hdropflat]
          · rw [hbytes', viewBytes_cons]; omega
      · -- the head element is only partially consumed: trim it in place
        push_neg at hle
        have hne : r ≠ 0 := by omega
        refine ⟨⟨some (bs.drop r), iov.iov_len - r⟩ :: tl, ?_, ?_, ?_, ?_⟩
        · unfold cursor_adjust
          rw [spool_advance]
          have hnle : ¬ (iov.iov_len ≤ r) := by omega
          rw [if_neg hnle]
          simp only [hne, hle, and_self, ne_eq, not_false_iff, if_pos, ite_true, hbase]
          simp [List.length_cons]
        · intro x hx
          rcases List.mem_cons.mp hx with hx | hx
          · subst hx
            refine ⟨by simp, ?_, ?_⟩
            · show iov.iov_len - r = ((some (bs.drop r)).getD []).length
              simp only [Option.getD_some, List.length_drop]
              omega
            · show 0 < iov.iov_len - r
              omega
          · exact htl x hx
        · rw [flattenView_cons, hflat]
          dsimp only
          simp only [Option.getD_some]
          have htake : (bs.drop r).take (iov.iov_len - r) = bs.drop r := by
            apply List.take_of_length_le
            rw [List.length_drop]
            omega
          rw [htake, List.drop_append_of_le_length (by omega)]
        · rw [viewBytes_cons, viewBytes_cons]
          dsimp only
          omega

theorem spool_loop_drains (v : List IOVec) (sched : List WResult)
    (hd : SpDrives v sched) :
    ∀ (len : Int) (rtr : Nat) (sent sleeps : List Nat), validView v →
    (spool_loop sched v (v.length : Int) len (viewBytes v) rtr sent sleeps).map
        (fun o => (o.res, o.len_out, o.sent, o.left))
      = some (.ok, len + (viewBytes v : Int), sent ++ flattenView v, 0) := by
  induction hd with
  | last v rest hpos =>
      intro len rtr sent sleeps hv
      have h0 : ¬ (viewBytes v = 0) := by omega
      have htake : (flattenView v).take (viewBytes v) = flattenView v := by
        apply List.take_of_length_le
        rw [flattenView_length v hv]
      rw [spool_loop.eq_def]
      simp only [h0, ite_false, if_neg, not_false_iff]
      simp only [ne_eq, h0, not_false_iff, ite_true, if_pos, Nat.sub_self,
        lt_irrefl, ite_false]
      rw [spool_loop.eq_def]
      simp [htake]
  | step v v' r rest h1 h2 hadj hrec ih =>
      intro len rtr sent sleeps hv
      obtain ⟨v'', hadj2, hvalid', hflat', hbytes'⟩ := cursor_adjust_spec v r hv h1 h2
      rw [hadj] at hadj2
      have hvv : v' = v'' := by cases hadj2; rfl
      subst hvv
      have hne0 : ¬ (viewBytes v = 0) := by omega
      have hr0 : ¬ (r = 0) := by omega
      have hlt : 0 < viewBytes v - r := by omega
      rw [spool_loop.eq_def]
      simp only [hne0, ite_false, if_neg, not_false_iff]
      simp only [ne_eq, hr0, not_false_iff, ite_true, if_pos, hlt]
      rw [hadj]
      rw [show viewBytes v - r = viewBytes v' from by omega]
      have hih := ih (len + (r : Int)) rtr (sent ++ (flattenView v).take r) sleeps hvalid'
      rw [hih]
      have harith : len + (r : Int) + (viewBytes v' : Int) = len + (viewBytes v : Int) := by
        rw [hbytes']
        push_cast [Nat.cast_sub (Nat.le_of_lt h2)]
        ring
      have hsent : sent ++ (flattenView v).take r ++ flattenView v'
          = sent ++ flattenView v := by
        rw [hflat', List.append_assoc, List.take_append_drop]
      rw [harith, hsent]

end Rev2

/-- C2: For every valid VectorSet (a non-empty array of vectors, each with a
non-null base, a positive length, and a length accurate for its region) of
total length `L = viewBytes arr`, if every vectored write the spooler issues
succeeds — possibly writing fewer bytes than requested, down to one byte per
call (`SpDrives`) — then `spool_iovv` returns success, reports `L` octets in
`*len`, the transmitted stream is exactly `flattenView arr` (so exactly `L`
octets, in order, with no byte sent twice and none omitted), and the
remaining-octet counter `left_2_go` of the cursor ends fully drained at
zero. -/
theorem c2_spooler_drains :
    ∀ (arr : List IOVec) (sched : List WResult),
      arr ≠ [] → validView arr → Rev2.SpDrives arr sched →
      (Rev2.spool_iovv (some arr) (arr.length : Int) sched).map
          (fun o => (o.res, o.len_out, o.sent, o.left))
        = some (.ok, (viewBytes arr : Int), flattenView arr, 0) := by
  intro arr sched hne hv hd
  rw [Rev2.spool_iovv, Rev2.check_iovv_valid arr hne hv]
  simp only [Int.toNat_natCast, Option.getD_some]
  have h := Rev2.spool_loop_drains arr sched hd 0 0 [] [] hv
  simpa using h

/-- C2 witness: a two-vector set holding the octets `[10, 20]` and `[30]`
(total length 3), against a socket that accepts exactly one octet per
vectored write, is drained completely: 3 octets reported, stream
`[10, 20, 30]`, nothing left. -/
theorem c2_spooler_drains_witness :
    (Rev2.spool_iovv (some [⟨some [10, 20], 2⟩, ⟨some [30], 1⟩]) 2
        [.ok 1, .ok 1, .ok 1]).map (fun o => (o.res, o.len_out, o.sent, o.left))
      = some (.ok, 3, [10, 20, 30], 0) := by
  have d2 : Rev2.SpDrives [⟨some [30], 1⟩] [.ok 1] :=
    .last [⟨some [30], 1⟩] [] (by decide)
  have d1 : Rev2.SpDrives [⟨some [20], 1⟩, ⟨some [30], 1⟩] [.ok 1, .ok 1] :=
    .step _ [⟨some [30], 1⟩] 1 _ (by decide) (by decide) (by decide) d2
  have d0 : Rev2.SpDrives [⟨some [10, 20], 2⟩, ⟨some [30], 1⟩]
      [.ok 1, .ok 1, .ok 1] :=
    .step _ [⟨some [20], 1⟩, ⟨some [30], 1⟩] 1 _ (by decide) (by decide)
      (by decide) d1
  have h := c2_spooler_drains [⟨some [10, 20], 2⟩, ⟨some [30], 1⟩]
    [.ok 1, .ok 1, .ok 1] (by decide) (by decide) d0
  simpa using h

/-- C7: whenever a vectored write inside the `Rev2` spooler fails, the error
reported to the caller is `writev_errmap` of the underlying `errno`:
quota-exceeded, file-too-big and no-space become `ENOTSOCK`;
destination-lost and broken-pipe become `ENOTCONN`; buffer exhaustion
becomes `EIO`; and bad-descriptor, fault, interrupted, invalid-argument and
I/O-error pass through unchanged.  A non-would-block failure is reported
immediately; would-block itself passes through unchanged at the moment it
is reported, namely once the retry ceiling is used up. -/
theorem c7_spool_error_mapping :
    (∀ (sched : List WResult) (view : List IOVec) (n_el len : Int)
        (left rtr : Nat) (sent sleeps : List Nat) (e : Errno) (si : Bool),
        0 < left → e ≠ Eagain →
        Rev2.spool_loop (.err e si :: sched) view n_el len left rtr sent sleeps
          = some ⟨.fail (writev_errmap e), len, sent, view, n_el, left, sched, sleeps⟩)
    ∧ (writev_errmap Edquot = Enotsock ∧ writev_errmap Efbig = Enotsock
        ∧ writev_errmap Enospc = Enotsock
        ∧ writev_errmap Edestaddrreq = Enotconn ∧ writev_errmap Epipe = Enotconn
        ∧ writev_errmap Enobufs = Eio
        ∧ writev_errmap Ebadf = Ebadf ∧ writev_errmap Efault = Efault
        ∧ writev_errmap Eintr = Eintr ∧ writev_errmap Einval = Einval
        ∧ writev_errmap Eio = Eio ∧ writev_errmap Eagain = Eagain)
    ∧ (∀ (sched : List WResult) (view : List IOVec) (n_el len : Int)
        (left rtr : Nat) (sent sleeps : List Nat) (si : Bool),
        0 < left → Rev2.MAX_RETRIES ≤ rtr →
        Rev2.spool_loop (.err Eagain si :: sched) view n_el len left rtr sent sleeps
          = some ⟨.fail Eagain, len, sent, view, n_el, left, sched, sleeps⟩) := by
  refine ⟨?_, by decide, ?_⟩
  · intro sched view n_el len left rtr sent sleeps e si hleft he
    have h0 : ¬ (left = 0) := by omega
    rw [Rev2.spool_loop.eq_def]
    simp [h0, he]
  · intro sched view n_el len left rtr sent sleeps si hleft hceil
    have h0 : ¬ (left = 0) := by omega
    have hc : ¬ (rtr < Rev2.MAX_RETRIES) := by omega
    rw [Rev2.spool_loop.eq_def]
    simp [h0, hc]

/-- C7 witness: a broken-pipe `writev` failure is reported as `ENOTCONN`,
and the disk-only quota error maps to `ENOTSOCK`. -/
theorem c7_spool_error_mapping_witness :
    (Rev2.spool_loop [.err Epipe false] [⟨some [9], 1⟩] 1 0 1 0 [] []
        = some ⟨.fail (writev_errmap Epipe), 0, [], [⟨some [9], 1⟩], 1, 1, [], []⟩)
    ∧ writev_errmap Edquot = Enotsock :=
  ⟨c7_spool_error_mapping.1 [] [⟨some [9], 1⟩] 1 0 1 0 [] [] Epipe false
      (by decide) (by decide),
    c7_spool_error_mapping.2.1.1⟩

/-- C8: in the `Rev2` spooler, every would-block (`EAGAIN`) failure of the
vectored write is retried after a fixed `nanosleep` of `a_third_ns`
nanoseconds — the timespec `{0, 16666667}`, one sixtieth of a second to the
nanosecond — as long as the retry count is below the ceiling
(`MAX_RETRIES = 50`); only once the ceiling is used up is would-block
returned to the caller. -/
theorem c8_spool_wouldblock_retry :
    (∀ (sched : List WResult) (view : List IOVec) (n_el len : Int)
        (left rtr : Nat) (sent sleeps : List Nat),
        0 < left → rtr < Rev2.MAX_RETRIES →
        Rev2.spool_loop (.err Eagain false :: sched) view n_el len left rtr sent sleeps
          = Rev2.spool_loop sched view n_el len left (rtr + 1) sent
              (sleeps ++ [a_third_ns]))
    ∧ (∀ (sched : List WResult) (view : List IOVec) (n_el len : Int)
        (left rtr : Nat) (sent sleeps : List Nat) (si : Bool),
        0 < left → Rev2.MAX_RETRIES ≤ rtr →
        Rev2.spool_loop (.err Eagain si :: sched) view n_el len left rtr sent sleeps
          = some ⟨.fail Eagain, len, sent, view, n_el, left, sched, sleeps⟩)
    ∧ a_third_ns = 16666667 := by
  refine ⟨?_, ?_, rfl⟩
  · intro sched view n_el len left rtr sent sleeps hleft hrtr
    have h0 : ¬ (left = 0) := by omega
    rw [Rev2.spool_loop.eq_def]
    simp [h0, hrtr]
  · intro sched view n_el len left rtr sent sleeps si hleft hceil
    have h0 : ¬ (left = 0) := by omega
    have hc : ¬ (rtr < Rev2.MAX_RETRIES) := by omega
    rw [Rev2.spool_loop.eq_def]
    simp [h0, hc]

/-- C8 witness: one would-block failure with one octet still to stream turns
into a sleep of 16666667 ns and a retry with the counter bumped; with the
ceiling already used up (50 retries), would-block is surfaced. -/
theorem c8_spool_wouldblock_retry_witness :
    (Rev2.spool_loop [.err Eagain false, .ok 1] [⟨some [9], 1⟩] 1 0 1 0 [] []
        = Rev2.spool_loop [.ok 1] [⟨some [9], 1⟩] 1 0 1 1 [] [a_third_ns])
    ∧ (Rev2.spool_loop [.err Eagain false] [⟨some [9], 1⟩] 1 0 1 50 [] []
        = some ⟨.fail Eagain, 0, [], [⟨some [9], 1⟩], 1, 1, [], []⟩) := by
  constructor
  · have h := c8_spool_wouldblock_retry.1 [.ok 1] [⟨some [9], 1⟩] 1 0 1 0 [] []
      (by decide) (by decide)
    simpa using h
  · exact c8_spool_wouldblock_retry.2.1 [] [⟨some [9], 1⟩] 1 0 1 50 [] [] false
      (by decide) (by decide)

namespace Rev0

theorem check_go_valid0 (v : List IOVec) :
    validView v → ∀ s : Int,
      check_go v s = (if s + (viewBytes v : Int) = 0 then .fail Einval
        else .ok (s + (viewBytes v : Int))) := by
  induction v with
  | nil => intro _ s; simp [check_go, viewBytes]
  | cons iov tl ih =>
      intro hv s
      obtain ⟨⟨hb, hl, hp⟩, htl⟩ := validView_cons iov tl hv
      rcases iov with ⟨b, ln⟩
      rcases b with _ | bs
      · exact absurd rfl hb
      · have hz : ln ≠ 0 := by dsimp at hp; omega
        rw [check_go]
        dsimp only
        rw [if_neg hz]
        rw [ih htl (s + (ln : Int))]
        rw [viewBytes_cons]
        dsimp only
        have harith : s + (ln : Int) + (viewBytes tl : Int)
            = s + ((ln + viewBytes tl : Nat) : Int) := by push_cast; ring
        rw [harith]

theorem check_iovv_pos (arr : List IOVec) (h : arr ≠ []) (hv : validView arr) :
    check_iovv (some arr) arr.length = .ok (viewBytes arr : Int)
      ∧ 0 < (viewBytes arr : Int) := by
  have hlen : arr.length ≠ 0 := fun h0 => h (List.length_eq_zero.mp h0)
  have hbpos : 0 < viewBytes arr := by
    rcases arr with _ | ⟨iov, tl⟩
    · exact absurd rfl h
    · obtain ⟨⟨hb, hl, hp⟩, _⟩ := validView_cons iov tl hv
      rw [viewBytes_cons]; omega
  constructor
  · rw [check_iovv]
    simp only [hlen, ite_false, if_neg, not_false_iff]
    rw [List.take_length, check_go_valid0 arr hv 0]
    have hne : viewBytes arr ≠ 0 := by omega
    simp [hne]
  · omega

theorem check_go_first_violation (pre : List IOVec) :
    ∀ (x : IOVec) (suf : List IOVec) (s : Int), validView pre →
      ((x.iov_base = none → check_go (pre ++ x :: suf) s = .fail Efault)
        ∧ (x.iov_base ≠ none → x.iov_len = 0 →
            check_go (pre ++ x :: suf) s = .fail Einval)) := by
  induction pre with
  | nil =>
      intro x suf s _
      constructor
      · intro hb
        rcases x with ⟨b, ln⟩
        have hb0 : b = none := hb
        subst hb0
        rfl
      · intro hb hz
        rcases x with ⟨b, ln⟩
        rcases b with _ | bs
        · exact absurd rfl hb
        · have hz0 : ln = 0 := hz
          subst hz0
          rfl
  | cons p pre' ih =>
      intro x suf s hv
      obtain ⟨⟨hb, hl, hp⟩, hpre'⟩ := validView_cons p pre' hv
      rcases p with ⟨b, ln⟩
      rcases b with _ | bs
      · exact absurd rfl hb
      · have hz : ln ≠ 0 := by dsimp at hp; omega
        constructor
        · intro hbx
          have h0 := (ih x suf (s + (ln : Int)) hpre').1 hbx
          rw [List.cons_append, check_go]
          dsimp only
          rw [if_neg hz]
          exact h0
        · intro hbx hzx
          have h0 := (ih x suf (s + (ln : Int)) hpre').2 hbx hzx
          rw [List.cons_append, check_go]
          dsimp only
          rw [if_neg hz]
          exact h0

end Rev0

/-- C6 counterexample: the claim says a set with zero vectors fails as a
Fault condition (`EFAULT`); part_000's `check_iovv` with a non-null array
and `n_el == 0` actually fails with the Argument error `EINVAL`. -/
theorem c6_zero_vectors_argument_counterexample :
    Rev0.check_iovv (some [⟨some [7], 1⟩]) 0 = .fail Einval
    ∧ IovvRet.fail Einval ≠ IovvRet.fail Efault :=
  ⟨rfl, by decide⟩

/-- C6 as amended: the rules of `check_iovv`, in order: a null array fails
as Fault (`EFAULT`); a set with zero vectors fails as an Argument error
(`EINVAL`); then scanning the vectors in order, the first violating vector
decides the error — a null base reference is Fault, a non-positive (zero)
length is an Argument error; otherwise the sum of all vector lengths is
returned, and it is strictly positive. -/
theorem c6_validator_rules :
    (∀ n_el : Nat, Rev0.check_iovv none n_el = .fail Efault)
    ∧ (∀ arr : List IOVec, Rev0.check_iovv (some arr) 0 = .fail Einval)
    ∧ (∀ arr : List IOVec, arr ≠ [] → validView arr →
        Rev0.check_iovv (some arr) arr.length = .ok (viewBytes arr : Int)
          ∧ 0 < (viewBytes arr : Int))
    ∧ (∀ (pre : List IOVec) (x : IOVec) (suf : List IOVec), validView pre →
        ((x.iov_base = none →
            Rev0.check_iovv (some (pre ++ x :: suf)) (pre ++ x :: suf).length
              = .fail Efault)
          ∧ (x.iov_base ≠ none → x.iov_len = 0 →
            Rev0.check_iovv (some (pre ++ x :: suf)) (pre ++ x :: suf).length
              = .fail Einval))) := by
  refine ⟨fun n_el => rfl, fun arr => rfl, Rev0.check_iovv_pos, ?_⟩
  intro pre x suf hv
  have hlen : (pre ++ x :: suf).length ≠ 0 := by simp
  have h := Rev0.check_go_first_violation pre x suf 0 hv
  constructor
  · intro hb
    rw [Rev0.check_iovv]
    simp only [hlen, ite_false, if_neg, not_false_iff]
    rw [List.take_length]
    exact h.1 hb
  · intro hb hz
    rw [Rev0.check_iovv]
    simp only [hlen, ite_false, if_neg, not_false_iff]
    rw [List.take_length]
    exact h.2 hb hz

/-- C6 witness: a valid two-vector set sums to 3 (strictly positive); a set
whose second vector has a null base fails as Fault even though its length
field is nonzero. -/
theorem c6_validator_rules_witness :
    (Rev0.check_iovv (some [⟨some [1, 2], 2⟩, ⟨some [3], 1⟩]) 2 = .ok 3
      ∧ (0 : Int) < 3)
    ∧ Rev0.check_iovv (some [⟨some [1], 1⟩, ⟨none, 4⟩]) 2 = .fail Efault :=
  ⟨c6_validator_rules.2.2.1 [⟨some [1, 2], 2⟩, ⟨some [3], 1⟩] (by decide)
      (by decide),
    (c6_validator_rules.2.2.2 [⟨some [1], 1⟩] ⟨none, 4⟩ [] (by decide)).1 rfl⟩

/-- C1 evidence (code bug): a fully successful transfer of the file
"WORLD" (5 octets) bracketed by a 5-octet header "HELLO" and a 1-octet
trailer "!", against a socket that accepts everything, returns success with
`*len == 6` — only the header and trailer octets — although 11 octets were
transmitted: the success path of part_000's `sendfile` never adds the file
body's `cumulative` into `*len` (the `*len += cumulative` exists only on
the failure paths, lines 306/310/316), contradicting both the claim and the
function's own documentation ("Out: Total number of octets written
(headers, file, and trailers combined)", lines 243–245). -/
theorem c1_success_path_len_omits_body :
    Rev0.sendfile
        ⟨.ok ⟨.reg, 5⟩, .ok ⟨.sock, 0⟩, .ok 1, 0,
          [.ok [87, 79, 82, 76, 68], .ok []], [.ok 5], [.ok 5, .ok 1]⟩
        0 (some 0)
        (some ⟨some [⟨some [72, 69, 76, 76, 79], 5⟩], 1,
          some [⟨some [33], 1⟩], 1⟩) 0
      = ⟨.success, some 6,
          [72, 69, 76, 76, 79, 87, 79, 82, 76, 68, 33], [], [], []⟩
    ∧ ([72, 69, 76, 76, 79, 87, 79, 82, 76, 68, 33] : List Nat).length = 11
    ∧ (6 : Int) ≠ 11 := by
  refine ⟨?_, by decide, by decide⟩
  rfl

/-- C3: whenever the `len` reference is present, `flags` is zero, the file
descriptor stats as a regular file, and the requested non-negative offset is
strictly greater than the file's current size, `sendfile` returns success
with zero octets reported, transmits nothing — in particular no header or
trailer data — and consumes no read, send or writev schedule entry. -/
theorem c3_offset_past_eof :
    ∀ (w : Rev0.World) (offset len0 : Int) (hdtr : Option Rev0.SfHdTr)
      (st : Rev0.StatR),
      0 ≤ offset → w.fstat_fd = .ok st → st.st_kind = .reg →
      st.st_size < offset →
      Rev0.sendfile w offset (some len0) hdtr 0
        = ⟨.success, some 0, [], w.reads, w.sends, w.writevs⟩ := by
  intro w offset len0 hdtr st hoff hf hk hsz
  have hno : ¬ (offset < 0) := by omega
  simp [Rev0.sendfile, hf, hk, hsz, hno]

/-- C3 witness: offset 9 against a 5-octet regular file succeeds at once
with zero octets reported and nothing transmitted. -/
theorem c3_offset_past_eof_witness :
    Rev0.sendfile ⟨.ok ⟨.reg, 5⟩, .ok ⟨.sock, 0⟩, .ok 1, 0, [], [], []⟩ 9
        (some 0) none 0
      = ⟨.success, some 0, [], [], [], []⟩ :=
  c3_offset_past_eof ⟨.ok ⟨.reg, 5⟩, .ok ⟨.sock, 0⟩, .ok 1, 0, [], [], []⟩ 9 0
    none ⟨.reg, 5⟩ (by decide) rfl rfl (by decide)

/-- C9 counterexample: the claim says every Fault failure — including a
malformed trailer vector set — is reported before any data movement.  With
a valid header "HELLO", file body "WORLD", and a trailer set whose one
vector has a null base, part_000's `sendfile` fails with `EFAULT` only at
trailer-spooling time, after 10 octets have already been transmitted. -/
theorem c9_trailer_fault_after_data_counterexample :
    Rev0.sendfile
        ⟨.ok ⟨.reg, 5⟩, .ok ⟨.sock, 0⟩, .ok 1, 0,
          [.ok [87, 79, 82, 76, 68], .ok []], [.ok 5], [.ok 5]⟩
        0 (some 0)
        (some ⟨some [⟨some [72, 69, 76, 76, 79], 5⟩], 1, some [⟨none, 1⟩], 1⟩) 0
      = ⟨.failure Efault, some 5, [72, 69, 76, 76, 79, 87, 79, 82, 76, 68],
          [], [], []⟩
    ∧ ([72, 69, 76, 76, 79, 87, 79, 82, 76, 68] : List Nat) ≠ [] := by
  refine ⟨?_, by decide⟩
  rfl

/-- C9 as amended: failures from argument validation, descriptor
validation, and header-set validation are detected before any data
movement — the transmitted stream is empty and no read, send or writev
schedule entry has been consumed (so nothing was retried either): a NULL
`len` reference, a negative offset or nonzero flags, a failing file-status
query (its `errno` — `EBADF`/`EFAULT`/… — passed through), a non-regular
file, a failing socket-status query (passed through), a non-socket
descriptor, a failing socket-option query (`EDOM`/`ENOPROTOOPT` remapped
to the Argument error `EINVAL`, every other `errno` passed through), a
non-stream-socket type, and a malformed header set all fail this way.
(Trailer-set validation, by contrast, happens only after the body has been
transmitted — see the counterexample.) -/
theorem c9_validation_before_movement :
    (∀ (w : Rev0.World) (offset : Int) (hdtr : Option Rev0.SfHdTr) (flags : Int),
        Rev0.sendfile w offset none hdtr flags
          = ⟨.failure Einval, none, [], w.reads, w.sends, w.writevs⟩)
    ∧ (∀ (w : Rev0.World) (offset len0 : Int) (hdtr : Option Rev0.SfHdTr)
          (flags : Int),
        offset < 0 ∨ flags ≠ 0 →
        Rev0.sendfile w offset (some len0) hdtr flags
          = ⟨.failure Einval, some 0, [], w.reads, w.sends, w.writevs⟩)
    ∧ (∀ (w : Rev0.World) (offset len0 : Int) (hdtr : Option Rev0.SfHdTr)
          (e : Errno),
        0 ≤ offset → w.fstat_fd = .fail e →
        Rev0.sendfile w offset (some len0) hdtr 0
          = ⟨.failure e, some 0, [], w.reads, w.sends, w.writevs⟩)
    ∧ (∀ (w : Rev0.World) (offset len0 : Int) (hdtr : Option Rev0.SfHdTr)
          (st : Rev0.StatR),
        0 ≤ offset → w.fstat_fd = .ok st → st.st_kind ≠ .reg →
        Rev0.sendfile w offset (some len0) hdtr 0
          = ⟨.failure Enotsup, some 0, [], w.reads, w.sends, w.writevs⟩)
    ∧ (∀ (w : Rev0.World) (offset len0 : Int) (hdtr : Option Rev0.SfHdTr)
          (st : Rev0.StatR) (e : Errno),
        0 ≤ offset → w.fstat_fd = .ok st → st.st_kind = .reg →
        offset ≤ st.st_size → w.fstat_sd = .fail e →
        Rev0.sendfile w offset (some len0) hdtr 0
          = ⟨.failure e, some 0, [], w.reads, w.sends, w.writevs⟩)
    ∧ (∀ (w : Rev0.World) (offset len0 : Int) (hdtr : Option Rev0.SfHdTr)
          (st st2 : Rev0.StatR),
        0 ≤ offset → w.fstat_fd = .ok st → st.st_kind = .reg →
        offset ≤ st.st_size → w.fstat_sd = .ok st2 → st2.st_kind ≠ .sock →
        Rev0.sendfile w offset (some len0) hdtr 0
          = ⟨.failure Enotsock, some 0, [], w.reads, w.sends, w.writevs⟩)
    ∧ (∀ (w : Rev0.World) (offset len0 : Int) (hdtr : Option Rev0.SfHdTr)
          (st st2 : Rev0.StatR) (e : Errno),
        0 ≤ offset → w.fstat_fd = .ok st → st.st_kind = .reg →
        offset ≤ st.st_size → w.fstat_sd = .ok st2 → st2.st_kind = .sock →
        w.so_type = .fail e → (e = Edom ∨ e = Enoprotoopt) →
        Rev0.sendfile w offset (some len0) hdtr 0
          = ⟨.failure Einval, some 0, [], w.reads, w.sends, w.writevs⟩)
    ∧ (∀ (w : Rev0.World) (offset len0 : Int) (hdtr : Option Rev0.SfHdTr)
          (st st2 : Rev0.StatR) (e : Errno),
        0 ≤ offset → w.fstat_fd = .ok st → st.st_kind = .reg →
        offset ≤ st.st_size → w.fstat_sd = .ok st2 → st2.st_kind = .sock →
        w.so_type = .fail e → e ≠ Edom → e ≠ Enoprotoopt →
        Rev0.sendfile w offset (some len0) hdtr 0
          = ⟨.failure e, some 0, [], w.reads, w.sends, w.writevs⟩)
    ∧ (∀ (w : Rev0.World) (offset len0 : Int) (hdtr : Option Rev0.SfHdTr)
          (st st2 : Rev0.StatR) (so : Int),
        0 ≤ offset → w.fstat_fd = .ok st → st.st_kind = .reg →
        offset ≤ st.st_size → w.fstat_sd = .ok st2 → st2.st_kind = .sock →
        w.so_type = .ok so → so ≠ Rev0.SOCK_STREAM →
        Rev0.sendfile w offset (some len0) hdtr 0
          = ⟨.failure Enotsock, some 0, [], w.reads, w.sends, w.writevs⟩)
    ∧ (∀ (w : Rev0.World) (offset len0 : Int) (h : Rev0.SfHdTr)
          (st st2 : Rev0.StatR) (a0 : IOVec) (arest : List IOVec) (e : Errno),
        0 ≤ offset → w.fstat_fd = .ok st → st.st_kind = .reg →
        offset ≤ st.st_size → w.fstat_sd = .ok st2 → st2.st_kind = .sock →
        w.so_type = .ok Rev0.SOCK_STREAM → w.lseek_res = offset →
        h.headers = some (a0 :: arest) → 0 < h.hdr_cnt →
        Rev0.check_iovv (some (a0 :: arest)) h.hdr_cnt.toNat = .fail e →
        Rev0.sendfile w offset (some len0) (some h) 0
          = ⟨.failure e, some 0, [], w.reads, w.sends, w.writevs⟩) := by
  refine ⟨fun w offset hdtr flags => rfl, ?_, ?_, ?_, ?_, ?_, ?_, ?_, ?_, ?_⟩
  · intro w offset len0 hdtr flags h
    simp only [Rev0.sendfile]
    rw [if_pos h]
  · intro w offset len0 hdtr e hoff hf
    have hno : ¬ (offset < 0) := by omega
    simp [Rev0.sendfile, hf, hno]
  · intro w offset len0 hdtr st hoff hf hk
    have hno : ¬ (offset < 0) := by omega
    simp [Rev0.sendfile, hf, hk, hno]
  · intro w offset len0 hdtr st e hoff hf hk hle hsd
    have hno : ¬ (offset < 0) := by omega
    have hns : ¬ (st.st_size < offset) := by omega
    simp [Rev0.sendfile, hf, hk, hsd, hno, hns]
  · intro w offset len0 hdtr st st2 hoff hf hk hle hsd hk2
    have hno : ¬ (offset < 0) := by omega
    have hns : ¬ (st.st_size < offset) := by omega
    simp [Rev0.sendfile, hf, hk, hsd, hk2, hno, hns]
  · intro w offset len0 hdtr st st2 e hoff hf hk hle hsd hk2 hso he
    have hno : ¬ (offset < 0) := by omega
    have hns : ¬ (st.st_size < offset) := by omega
    rcases he with he | he <;> subst he <;>
      simp [Rev0.sendfile, hf, hk, hsd, hk2, hso, hno, hns]
  · intro w offset len0 hdtr st st2 e hoff hf hk hle hsd hk2 hso hne1 hne2
    have hno : ¬ (offset < 0) := by omega
    have hns : ¬ (st.st_size < offset) := by omega
    simp [Rev0.sendfile, hf, hk, hsd, hk2, hso, hne1, hne2, hno, hns]
  · intro w offset len0 hdtr st st2 so hoff hf hk hle hsd hk2 hso hstream
    have hno : ¬ (offset < 0) := by omega
    have hns : ¬ (st.st_size < offset) := by omega
    simp [Rev0.sendfile, hf, hk, hsd, hk2, hso, hstream, hno, hns]
  · intro w offset len0 h st st2 a0 arest e hoff hf hk hle hsd hk2 hso hlk
      hhd hcnt hchk
    have hno : ¬ (offset < 0) := by omega
    have hns : ¬ (st.st_size < offset) := by omega
    simp [Rev0.sendfile, Rev0.spool_iovv, hf, hk, hsd, hk2, hso, hlk, hhd,
      hcnt, hchk, hno, hns]

/-- C9 witness: with valid descriptors and a header set whose single vector
has a null base, the call fails with `EFAULT` before consuming any schedule
entry and with nothing transmitted; and a socket-option query failing with
`EDOM` is remapped to the Argument error `EINVAL`, likewise before any data
movement. -/
theorem c9_validation_before_movement_witness :
    (Rev0.sendfile ⟨.ok ⟨.reg, 5⟩, .ok ⟨.sock, 0⟩, .ok 1, 0, [.ok []], [],
        [.ok 9]⟩ 0 (some 0) (some ⟨some [⟨none, 3⟩], 1, none, 0⟩) 0
      = ⟨.failure Efault, some 0, [], [.ok []], [], [.ok 9]⟩)
    ∧ (Rev0.sendfile ⟨.ok ⟨.reg, 5⟩, .ok ⟨.sock, 0⟩, .fail Edom, 0, [.ok []],
        [], [.ok 9]⟩ 0 (some 0) none 0
      = ⟨.failure Einval, some 0, [], [.ok []], [], [.ok 9]⟩) :=
  ⟨c9_validation_before_movement.2.2.2.2.2.2.2.2.2
      ⟨.ok ⟨.reg, 5⟩, .ok ⟨.sock, 0⟩, .ok 1, 0, [.ok []], [], [.ok 9]⟩ 0 0
      ⟨some [⟨none, 3⟩], 1, none, 0⟩ ⟨.reg, 5⟩ ⟨.sock, 0⟩ ⟨none, 3⟩ [] Efault
      (by decide) rfl rfl (by decide) rfl rfl rfl rfl rfl (by decide) rfl,
    c9_validation_before_movement.2.2.2.2.2.2.1
      ⟨.ok ⟨.reg, 5⟩, .ok ⟨.sock, 0⟩, .fail Edom, 0, [.ok []], [], [.ok 9]⟩ 0 0
      none ⟨.reg, 5⟩ ⟨.sock, 0⟩ Edom
      (by decide) rfl rfl (by decide) rfl rfl rfl (Or.inl rfl)⟩

/-- C10: `stubborn_send` with a NULL buffer pointer fails with `EINVAL`
without calling `send` (the schedule is returned unconsumed, nothing is
sent, no sleep happens); with a zero requested length it returns success
immediately, likewise without touching the socket. -/
theorem c10_stubborn_send_sanity :
    (∀ (b_sz : Nat) (sched : List SendR),
        Rev0.stubborn_send none b_sz sched
          = some ⟨.fail Einval, b_sz, [], [], sched, 0⟩)
    ∧ (∀ (bufr : List Nat) (sched : List SendR),
        Rev0.stubborn_send (some bufr) 0 sched
          = some ⟨.ok, 0, [], [], sched, 0⟩) := by
  exact ⟨fun b sched => rfl, fun bufr sched => rfl⟩

end Ten4Sendfile
